import Mathlib

/-!
Shallow embedding of `src/main.py` (polymarket-log): the `Ingest` buffered
writer, the window scheduler and capture loop of `Daemon`, and the per-coin
fan-out of `main`.  Machine integers are modelled as `Nat`/`Int`; the
filesystem is an explicit map from paths to optional byte contents; the
event-driven capture loop is a step function over an explicit state.
-/

/-- Decoded JSON values, as produced by `orjson.loads` on an inbound
websocket frame.  Captured records are opaque pass-through data; `dumps`
below models `orjson.dumps` (compact serialization, no trailing newline). -/
inductive Json where
  | null : Json
  | bool : Bool → Json
  | num : Int → Json
  | str : String → Json
  | arr : List Json → Json
  | obj : List (String × Json) → Json

/-- Compact serialization of a JSON value, modelling `orjson.dumps`
(string escaping elided: records are persisted verbatim). -/
def Json.dumps : Json → String
  | Json.null => "null"
  | Json.bool b => cond b "true" "false"
  | Json.num n => toString n
  | Json.str s => "\"" ++ s ++ "\""
  | Json.arr xs =>
      "[" ++ String.intercalate "," (xs.attach.map (fun p => Json.dumps p.1)) ++ "]"
  | Json.obj kvs =>
      "\x7b" ++ String.intercalate ","
        (kvs.attach.map (fun p => "\"" ++ p.1.1 ++ "\":" ++ Json.dumps p.1.2)) ++ "\x7d"
decreasing_by
  · have h := List.sizeOf_lt_of_mem p.2
    simp only [Json.arr.sizeOf_spec]
    omega
  · have h := List.sizeOf_lt_of_mem p.2
    have h2 : sizeOf p.1.2 < sizeOf p.1 := by
      obtain ⟨⟨k, v⟩, hp⟩ := p
      simp
    simp only [Json.obj.sizeOf_spec]
    omega

/-- The line separator appended after each serialized record:
`os.linesep.encode()` on the POSIX hosts this daemon targets. -/
def lineSep : String := "\n"

/-- A filesystem: maps a path to `some contents` when the file exists.
Opening a file in mode `"ab"` creates it when absent and appends at the end. -/
def FS : Type := String → Option String

/-- The empty filesystem (no files). -/
def FS.empty : FS := fun _ => none

/-- One append-mode write of `chunk` to `path`: creates the file when absent
(the contents of an absent file read as empty) and appends at the end. -/
def FS.appendStr (fs : FS) (path chunk : String) : FS :=
  fun p => if p = path then some (((fs path).getD "") ++ chunk) else fs p

/-- Concatenation of a list of strings (used for file contents). -/
def joinAll (l : List String) : String := l.foldr (fun a b => a ++ b) ""

/-- State of one `Ingest` object (`src/main.py`, class `Ingest`).
`directory = none` models the case `directory=None` in `__init__`, in which
the instance attribute `_directory` is never assigned. -/
structure Ingest where
  /-- Source `self._set`: the ordered pending sequence of records. -/
  pending : List Json
  /-- Source `self._number_of_logs`. -/
  count : Nat
  /-- Source `self._name`. -/
  name : String
  /-- Source `self._until_flush`. -/
  untilFlush : Nat
  /-- Source `self._directory`; `none` when the attribute was never assigned. -/
  directory : Option String
  /-- Source `self._filepath`. -/
  filepath : String

/-- Source `Ingest.__init__(name, directory, until_flush)`.  When a directory is
given, `_filepath = directory / (name + ".jsonl")`; otherwise `_filepath`
is the bare filename and `_directory` is never assigned. -/
def Ingest.init (name : String) (directory : Option String) (untilFlush : Nat) : Ingest :=
  { pending := []
    count := 0
    name := name
    untilFlush := untilFlush
    directory := directory
    filepath :=
      match directory with
      | some d => d ++ "/" ++ name ++ ".jsonl"
      | none => name ++ ".jsonl" }

/-- The `name` property setter.  The source assigns `self._name = name`
first, then reads `self._directory` to recompute `self._filepath`, then
calls `self.clear()`.  When the object was constructed with
`directory=None` the attribute read raises `AttributeError`: the `error`
payload is the object as the raise leaves it (only `_name` updated).
When the attribute exists it is a truthy `Path`, so the new target is
`directory / (name + ".jsonl")` and the buffer is cleared. -/
def Ingest.setName (b : Ingest) (name : String) : Except Ingest Ingest :=
  match b.directory with
  | none => Except.error { b with name := name }
  | some d =>
      Except.ok { b with
        name := name
        filepath := d ++ "/" ++ name ++ ".jsonl"
        pending := []
        count := 0 }

/-- The sequence of individual `file.write(...)` calls issued by
`Ingest.flush`: for each pending record in order, its serialization and
then the line separator. -/
def Ingest.flushWrites (b : Ingest) : List String :=
  b.pending.flatMap (fun r => [Json.dumps r, lineSep])

/-- The write loop of `Ingest.flush` at `path`, with fault injection:
`budget = some k` makes the `(k+1)`-th write call raise (the `error`
payload is the filesystem at the raise, holding the chunks already
written); `budget = none` lets every write succeed. -/
def writeAll (path : String) : List String → FS → Option Nat → Except FS FS
  | [], fs, _ => Except.ok fs
  | c :: cs, fs, none => writeAll path cs (fs.appendStr path c) none
  | _ :: _, fs, some 0 => Except.error fs
  | c :: cs, fs, some (k + 1) => writeAll path cs (fs.appendStr path c) (some k)

/-- Source `Ingest.flush` with fault injection on the individual writes.  The
`async with aiofiles.open(self._filepath, mode="ab")` creates the file even
when nothing is written (modelled by the initial empty append); the write
loop runs, and only after the whole loop succeeds does `self.clear()` run.
On a write error the exception propagates and the object is untouched. -/
def Ingest.flushWith (b : Ingest) (fs : FS) (budget : Option Nat) :
    Except (Ingest × FS) (Ingest × FS) :=
  match writeAll b.filepath b.flushWrites (fs.appendStr b.filepath "") budget with
  | Except.error fs1 => Except.error (b, fs1)
  | Except.ok fs1 => Except.ok ({ b with pending := [], count := 0 }, fs1)

/-- Source `Ingest.flush` when every write succeeds (the path taken by the capture
loop): appends one line per pending record, in order, to the target file
(created if absent), then clears the pending sequence and the count. -/
def Ingest.flush (b : Ingest) (fs : FS) : Ingest × FS :=
  ({ b with pending := [], count := 0 },
    fs.appendStr b.filepath (joinAll (b.pending.map (fun r => Json.dumps r ++ lineSep))))

/-- Source `Ingest.append(data)`: appends to `_set`, increments `_number_of_logs`,
and, when the count is no longer below `_until_flush`, synchronously
flushes.  The boolean reports whether the automatic flush was triggered. -/
def Ingest.append (b : Ingest) (data : Json) (fs : FS) : (Ingest × FS) × Bool :=
  let b1 : Ingest := { b with pending := b.pending ++ [data], count := b.count + 1 }
  if b1.count < b1.untilFlush then ((b1, fs), false)
  else (b1.flush fs, true)

/-- Appending a list of records one by one, counting the automatic flushes
triggered along the way. -/
def Ingest.appendMany : Ingest → FS → List Json → (Ingest × FS) × Nat
  | b, fs, [] => ((b, fs), 0)
  | b, fs, d :: ds =>
      match b.append d fs with
      | ((b1, fs1), fl) =>
          match Ingest.appendMany b1 fs1 ds with
          | ((b2, fs2), n) => ((b2, fs2), (cond fl 1 0) + n)

/-- Source `Daemon._get_timestamp()`: the current epoch second floored to the
900-second grid. -/
def Daemon.getTimestamp (now : Nat) : Nat := now / 900 * 900

/-- Lines 85-86 of `Daemon.capture`: the list
`[base + 900 * i for i in range(1, windows + 1)]` of window start epochs. -/
def captureTimestamps (base : Nat) (windows : Nat) : List Nat :=
  (List.range windows).map (fun i => base + 900 * (i + 1))

/-- Lines 88-90 of `Daemon.capture`: the value `till_next` passed verbatim
to `asyncio.sleep`.  `t1` is the clock reading used by `_get_timestamp`,
`t2` the later reading at line 88; `none` models the `IndexError` that
`timestamps[0]` raises when `windows = 0`. -/
def captureTillNext (t1 t2 : Nat) (windows : Nat) : Option Int :=
  (captureTimestamps (Daemon.getTimestamp t1) windows).head?.map
    (fun (f : Nat) => (f : Int) - (t2 : Int))

/-- Documented behaviour of `asyncio.sleep(d)`: a non-positive delay
returns immediately, so the effective wait is `max d 0`. -/
def asyncioSleepDelay (d : Int) : Int := max d 0

/-- The window slug `f"{self._coin}-updown-15m-{timestamps[i]}"`. -/
def windowSlug (coin : String) (ts : Nat) : String :=
  coin ++ "-updown-15m-" ++ toString ts

/-- Observable actions emitted by the capture loop, in program order. -/
inductive Act where
  /-- Source `tokens = await self._get_tokens(slug)`. -/
  | resolveTokens : String → Act
  /-- Source `self._ingest.name = slug` (buffer retarget at rotation). -/
  | retarget : String → Act
  /-- a subscribe control message sent on connection `gen` for `tokens`. -/
  | subscribe : Nat → String × String → Act
  /-- Source `self._reconnect()`: the session is replaced by connection `gen`. -/
  | reconnect : Nat → Act
  /-- Source `self._ingest.flush()` while the buffer targets `name`. -/
  | flushBuf : String → Act
  /-- a record appended while the buffer targets `name`. -/
  | appendRec : String → Json → Act

/-- Events that resolve one iteration of the `while True` receive loop. -/
inductive Ev where
  /-- Source `self._socket.recv()` returned a frame decoding to `data`. -/
  | message : Json → Ev
  /-- Source `TimeoutError` from `asyncio.timeout_at(deadline)`: window deadline. -/
  | timeout : Ev
  /-- Source `ConnectionClosedError` raised inside the `async with` block. -/
  | connClosed : Ev

/-- State of one `Daemon.capture` task between suspension points. -/
structure CaptureState where
  /-- Source `self._coin`. -/
  coin : String
  /-- the loop index `i`: which window is currently active. -/
  windowIdx : Nat
  /-- the local variable `tokens` of the current window. -/
  tokens : String × String
  /-- Source `self._ingest`. -/
  ingest : Ingest
  /-- the filesystem the ingest buffer writes to. -/
  fs : FS
  /-- generation number of `self._socket` (bumped by every `_reconnect`). -/
  socketGen : Nat
  /-- every control message sent so far: (connection generation, tokens,
  operation), in send order. -/
  controls : List (Nat × (String × String) × String)

/-- Lines 95-99 of `Daemon.capture`, the top of the per-window loop body:
compute the slug, resolve its token pair, retarget the ingest buffer to the
new slug, then subscribe the new tokens.  `getTokens` models the discovery
request.  When the ingest was built without a directory the retarget raises
`AttributeError` (see `Ingest.setName`) and the task dies: the `error`
payload is the state at the raise, and no subscribe is sent. -/
def windowSetup (getTokens : String → String × String) (s : CaptureState) (ts : Nat) :
    Except CaptureState CaptureState × List Act :=
  let slug := windowSlug s.coin ts
  let tokens := getTokens slug
  match s.ingest.setName slug with
  | Except.error b =>
      (Except.error { s with tokens := tokens, ingest := b },
        [Act.resolveTokens slug])
  | Except.ok b =>
      (Except.ok { s with
          tokens := tokens
          ingest := b
          controls := s.controls ++ [(s.socketGen, tokens, "subscribe")] },
        [Act.resolveTokens slug, Act.retarget slug,
          Act.subscribe s.socketGen tokens])

/-- One iteration of the `while True` loop (lines 106-121 of
`Daemon.capture`), resolved by event `e`.  Returns the next state, the
actions performed, and whether the loop `break`s to the next window.
- a received frame is decoded and appended (possibly auto-flushing);
- the window deadline flushes the buffer, replaces the session and breaks;
- `ConnectionClosedError` replaces the session and re-subscribes the
  current `tokens` on the new connection, without breaking. -/
def loopStep (s : CaptureState) (e : Ev) : CaptureState × List Act × Bool :=
  match e with
  | Ev.message data =>
      match s.ingest.append data s.fs with
      | ((b1, fs1), fl) =>
          ({ s with ingest := b1, fs := fs1 },
            Act.appendRec s.ingest.name data ::
              (cond fl [Act.flushBuf s.ingest.name] []),
            false)
  | Ev.timeout =>
      match s.ingest.flush s.fs with
      | (b1, fs1) =>
          ({ s with ingest := b1, fs := fs1, socketGen := s.socketGen + 1 },
            [Act.flushBuf s.ingest.name, Act.reconnect (s.socketGen + 1)],
            true)
  | Ev.connClosed =>
      ({ s with
          socketGen := s.socketGen + 1
          controls := s.controls ++ [(s.socketGen + 1, s.tokens, "subscribe")] },
        [Act.reconnect (s.socketGen + 1), Act.subscribe (s.socketGen + 1) s.tokens],
        false)

/-- Per-asset state created by `main` (line 189): one `Daemon` per coin,
each owning its own `Ingest` (threshold left at its default 1000) and its
own, initially absent, socket. -/
structure DaemonState where
  coin : String
  ingest : Ingest
  socketGen : Option Nat

/-- Source `daemons = [Daemon(coin, directory) for coin in arguments.coins]`. -/
def mainDaemons (coins : List String) (directory : Option String) : List DaemonState :=
  coins.map (fun c => { coin := c, ingest := Ingest.init c directory 1000, socketGen := none })

/-- One capture task handed to the task group: the step at which it would
finish on its own, and whether it finishes by raising. -/
structure TaskSpec where
  finish : Nat
  fails : Bool
deriving DecidableEq

/-- Outcome of a task inside the task group. -/
inductive TaskOutcome where
  | completed : TaskOutcome
  | failed : TaskOutcome
  | cancelled : TaskOutcome
deriving DecidableEq

/-- The step at which the first task failure occurs, if any. -/
def firstFailure (tasks : List TaskSpec) : Option Nat :=
  ((tasks.filter (fun t => t.fails)).map (fun t => t.finish)).min?

/-- Outcome of one task given the time of the group's first failure:
tasks already finished keep their result; the first failing task fails;
every task still running when the failure occurs is cancelled. -/
def TaskSpec.outcome (firstFail : Option Nat) (t : TaskSpec) : TaskOutcome :=
  match firstFail with
  | none => TaskOutcome.completed
  | some f =>
      if t.finish < f then TaskOutcome.completed
      else if t.fails && decide (t.finish = f) then TaskOutcome.failed
      else TaskOutcome.cancelled

/-- Documented semantics of `asyncio.TaskGroup` as used at lines 193-194 of
`main`: the first time a task fails, the remaining tasks in the group are
cancelled. -/
def taskGroupRun (tasks : List TaskSpec) : List TaskOutcome :=
  tasks.map (TaskSpec.outcome (firstFailure tasks))

theorem FS.appendStr_self (fs : FS) (p c : String) :
    fs.appendStr p c p = some (((fs p).getD "") ++ c) := by
  simp [FS.appendStr]

theorem FS.appendStr_of_ne (fs : FS) (p c q : String) (h : q ≠ p) :
    fs.appendStr p c q = fs q := by
  simp [FS.appendStr, h]

theorem FS.appendStr_appendStr (fs : FS) (p a b : String) :
    (fs.appendStr p a).appendStr p b = fs.appendStr p (a ++ b) := by
  funext q
  by_cases h : q = p
  · subst h
    simp [FS.appendStr, String.append_assoc]
  · simp [FS.appendStr, h]

theorem joinAll_nil : joinAll [] = "" := rfl

theorem joinAll_cons (c : String) (cs : List String) :
    joinAll (c :: cs) = c ++ joinAll cs := rfl

theorem joinAll_flatMap_pair (l : List Json) :
    joinAll (l.flatMap (fun r => [Json.dumps r, lineSep]))
      = joinAll (l.map (fun r => Json.dumps r ++ lineSep)) := by
  induction l with
  | nil => rfl
  | cons r rs ih =>
      simp only [List.flatMap_cons, List.map_cons, List.cons_append, List.nil_append,
        joinAll_cons, ih, String.append_assoc]

theorem writeAll_none (p : String) (cs : List String) (fs : FS) (s : String) :
    writeAll p cs (fs.appendStr p s) none = Except.ok (fs.appendStr p (s ++ joinAll cs)) := by
  induction cs generalizing s with
  | nil => simp [writeAll, joinAll_nil]
  | cons c cs ih =>
      rw [writeAll, FS.appendStr_appendStr, ih, joinAll_cons, String.append_assoc]

theorem Ingest.flushWith_none (b : Ingest) (fs : FS) :
    b.flushWith fs none = Except.ok (b.flush fs) := by
  rw [Ingest.flushWith, Ingest.flushWrites, writeAll_none, Ingest.flush]
  have h : ("" : String) ++ joinAll (b.pending.flatMap (fun r => [Json.dumps r, lineSep]))
      = joinAll (b.pending.map (fun r => Json.dumps r ++ lineSep)) := by
    rw [joinAll_flatMap_pair]
    simp
  rw [h]

theorem Ingest.append_name (b : Ingest) (d : Json) (fs : FS) :
    ((b.append d fs).1.1).name = b.name := by
  rw [Ingest.append]
  by_cases h : b.count + 1 < b.untilFlush <;> simp [h, Ingest.flush]

theorem loopStep_name (t : CaptureState) (e : Ev) :
    (loopStep t e).1.ingest.name = t.ingest.name := by
  cases e with
  | message d =>
      have h := Ingest.append_name t.ingest d t.fs
      rcases ha : t.ingest.append d t.fs with ⟨⟨b1, fs1⟩, fl⟩
      rw [ha] at h
      simp [loopStep, ha]
      exact h
  | timeout => simp [loopStep, Ingest.flush]
  | connClosed => simp [loopStep]

theorem Ingest.appendMany_no_flush (ds : List Json) (b : Ingest) (fs : FS)
    (h : b.count + ds.length < b.untilFlush) :
    Ingest.appendMany b fs ds
      = (({ b with pending := b.pending ++ ds, count := b.count + ds.length }, fs), 0) := by
  induction ds generalizing b with
  | nil => simp [Ingest.appendMany]
  | cons d ds ih =>
      rw [Ingest.appendMany]
      have hlt : b.count + 1 < b.untilFlush := by
        simp only [List.length_cons] at h
        omega
      rw [Ingest.append]
      simp only [hlt, if_pos]
      rw [ih { b with pending := b.pending ++ [d], count := b.count + 1 }
        (by simp only [List.length_cons] at h; simpa using by omega)]
      simp only [List.length_cons]
      have hp : (b.pending ++ [d]) ++ ds = b.pending ++ d :: ds := by simp
      have hc : b.count + 1 + ds.length = b.count + (ds.length + 1) := by omega
      rw [hp, hc]
      rfl

theorem Ingest.appendMany_concat (xs ys : List Json) (b : Ingest) (fs : FS) :
    Ingest.appendMany b fs (xs ++ ys)
      = ((Ingest.appendMany (Ingest.appendMany b fs xs).1.1
            (Ingest.appendMany b fs xs).1.2 ys).1,
         (Ingest.appendMany b fs xs).2
           + (Ingest.appendMany (Ingest.appendMany b fs xs).1.1
               (Ingest.appendMany b fs xs).1.2 ys).2) := by
  induction xs generalizing b fs with
  | nil => simp [Ingest.appendMany]
  | cons x xs ih =>
      rcases hx : b.append x fs with ⟨⟨b1, fs1⟩, fl⟩
      rcases h1 : Ingest.appendMany b1 fs1 xs with ⟨⟨b2, fs2⟩, n⟩
      rcases h2 : Ingest.appendMany b2 fs2 ys with ⟨⟨b3, fs3⟩, m⟩
      have hmid := ih b1 fs1
      simp [h1, h2] at hmid
      simp only [List.cons_append, Ingest.appendMany, hx, hmid, h1, h2]
      cases fl <;> simp [hmid, Nat.add_assoc]

/-- C2: an `Ingest` constructed with `directory=None` never assigns the
`_directory` attribute, so every later assignment to the `name` property
raises `AttributeError`; when a directory was supplied the setter always
succeeds; consequently the per-window retarget `self._ingest.name = slug`
in `Daemon.capture` fails whenever the daemon was built without a
directory. -/
theorem name_setter_requires_directory :
    (∀ (nm : String) (u : Nat), (Ingest.init nm none u).directory = none) ∧
    (∀ (b : Ingest) (nm : String), b.directory = none →
      b.setName nm = Except.error { b with name := nm }) ∧
    (∀ (b : Ingest) (nm d : String), b.directory = some d →
      ∃ b1, b.setName nm = Except.ok b1) ∧
    (∀ (g : String → String × String) (s : CaptureState) (ts : Nat),
      s.ingest.directory = none →
      ∃ s1, (windowSetup g s ts).1 = Except.error s1) := by
  refine ⟨fun nm u => rfl, ?_, ?_, ?_⟩
  · intro b nm h
    rw [Ingest.setName, h]
  · intro b nm d h
    simp only [Ingest.setName, h]
    exact ⟨_, rfl⟩
  · intro g s ts h
    simp only [windowSetup, Ingest.setName, h]
    exact ⟨_, rfl⟩

/-- Witness for C2 at a concrete directory-less buffer. -/
theorem name_setter_requires_directory_witness :
    (Ingest.init "btc" none 1000).directory = none ∧
    (Ingest.init "btc" none 1000).setName "eth"
      = Except.error { Ingest.init "btc" none 1000 with name := "eth" } :=
  ⟨name_setter_requires_directory.1 "btc" 1000,
    name_setter_requires_directory.2.1 (Ingest.init "btc" none 1000) "eth" rfl⟩

/-- C3 counterexample: on an `Ingest` constructed without a directory and
holding one pending record, assigning the `name` property does not switch
the target file and does not discard the pending records: it raises
`AttributeError`, the target stays `btc.jsonl` and the record stays
pending.  (The outcome the claim predicts would be
`Except.ok (Ingest.init "eth" none 1000)`.) -/
theorem rotate_without_directory_raises :
    ({ Ingest.init "btc" none 1000 with
        pending := [Json.null], count := 1 }).setName "eth"
      = Except.error { Ingest.init "btc" none 1000 with
          pending := [Json.null], count := 1, name := "eth" } ∧
    ({ Ingest.init "btc" none 1000 with
        pending := [Json.null], count := 1 }).setName "eth"
      ≠ Except.ok (Ingest.init "eth" none 1000) ∧
    ({ Ingest.init "btc" none 1000 with
        pending := [Json.null], count := 1, name := "eth" }).filepath = "btc.jsonl" ∧
    ({ Ingest.init "btc" none 1000 with
        pending := [Json.null], count := 1, name := "eth" }).pending = [Json.null] := by
  refine ⟨rfl, ?_, rfl, rfl⟩
  intro h
  rw [Ingest.setName] at h
  exact Except.noConfusion h

/-- C3 (amended): for an `Ingest` constructed with a directory, assigning
the `name` property switches the target file to
`<directory>/<new name>.jsonl` and discards all remaining pending records
(the pending sequence becomes empty and the count resets to 0) without the
discarded records being written anywhere; for an `Ingest` constructed
without a directory the assignment instead raises `AttributeError`,
updating only `_name`.  Rotation never touches the filesystem. -/
theorem rotate_retargets_and_discards :
    (∀ (b : Ingest) (d nm : String), b.directory = some d →
      b.setName nm = Except.ok { b with
        name := nm
        filepath := d ++ "/" ++ nm ++ ".jsonl"
        pending := []
        count := 0 }) ∧
    (∀ (b : Ingest) (nm : String), b.directory = none →
      b.setName nm = Except.error { b with name := nm }) ∧
    (∀ (g : String → String × String) (s : CaptureState) (ts : Nat)
        (s1 : CaptureState) (acts : List Act),
      windowSetup g s ts = (Except.ok s1, acts) → s1.fs = s.fs) ∧
    (∀ (g : String → String × String) (s : CaptureState) (ts : Nat)
        (s1 : CaptureState) (acts : List Act),
      windowSetup g s ts = (Except.error s1, acts) → s1.fs = s.fs) := by
  refine ⟨?_, ?_, ?_, ?_⟩
  · intro b d nm h
    rw [Ingest.setName, h]
  · intro b nm h
    rw [Ingest.setName, h]
  · intro g s ts s1 acts h
    cases hd : s.ingest.directory with
    | none =>
        rw [windowSetup, Ingest.setName, hd] at h
        simp at h
    | some d =>
        rw [windowSetup, Ingest.setName, hd] at h
        simp at h
        rw [← h.1]
  · intro g s ts s1 acts h
    cases hd : s.ingest.directory with
    | none =>
        rw [windowSetup, Ingest.setName, hd] at h
        simp at h
        rw [← h.1]
    | some d =>
        rw [windowSetup, Ingest.setName, hd] at h
        simp at h

/-- Witness for the amended C3 at a concrete buffer with a directory. -/
theorem rotate_retargets_and_discards_witness :
    (Ingest.init "btc" (some "logs") 1000).setName "eth"
      = Except.ok { Ingest.init "btc" (some "logs") 1000 with
          name := "eth"
          filepath := "logs" ++ "/" ++ "eth" ++ ".jsonl"
          pending := []
          count := 0 } :=
  rotate_retargets_and_discards.1 (Ingest.init "btc" (some "logs") 1000) "logs" "eth" rfl

/-- C4: for every `Ingest` with positive flush threshold `until_flush`
(default 1000, and the only value the daemon instantiates), `append` adds
the record at the end of the pending sequence and increments the count by
exactly one, synchronously flushing exactly when the incremented count
reaches the threshold; starting from a freshly constructed (empty) buffer,
appending exactly `until_flush` records triggers exactly one automatic
flush (inside the `until_flush`-th append), while `until_flush - 1`
appends trigger none. -/
theorem append_threshold_triggers_single_flush :
    (∀ (b : Ingest) (r : Json) (fs : FS), b.count + 1 < b.untilFlush →
      b.append r fs
        = (({ b with pending := b.pending ++ [r], count := b.count + 1 }, fs), false)) ∧
    (∀ (b : Ingest) (r : Json) (fs : FS), b.untilFlush ≤ b.count + 1 →
      b.append r fs
        = (Ingest.flush { b with pending := b.pending ++ [r], count := b.count + 1 } fs,
            true)) ∧
    (∀ (nm : String) (dir : Option String) (u : Nat) (fs : FS) (ds : List Json),
      1 ≤ u →
      (ds.length = u → (Ingest.appendMany (Ingest.init nm dir u) fs ds).2 = 1) ∧
      (ds.length = u - 1 → (Ingest.appendMany (Ingest.init nm dir u) fs ds).2 = 0)) := by
  refine ⟨?_, ?_, ?_⟩
  · intro b r fs h
    simp [Ingest.append, h]
  · intro b r fs h
    have h2 : ¬(b.count + 1 < b.untilFlush) := by omega
    simp [Ingest.append, h2]
  · intro nm dir u fs ds hu
    constructor
    · intro hlen
      have hne : ds ≠ [] := by
        intro hnil
        rw [hnil] at hlen
        simp at hlen
        omega
      obtain ⟨front, lastd, hds⟩ : ∃ f l, ds = f ++ [l] :=
        ⟨ds.dropLast, ds.getLast hne, (List.dropLast_append_getLast hne).symm⟩
      subst hds
      have hflen : front.length + 1 = u := by simpa using hlen
      rw [Ingest.appendMany_concat,
        Ingest.appendMany_no_flush front (Ingest.init nm dir u) fs
          (by simp [Ingest.init]; omega)]
      have hcond : ¬(front.length + 1 < u) := by omega
      simp [Ingest.appendMany, Ingest.append, Ingest.init, hcond]
    · intro hlen
      rw [Ingest.appendMany_no_flush ds (Ingest.init nm dir u) fs
        (by simp [Ingest.init]; omega)]

/-- Witness for C4: with threshold 2, two appends from empty trigger exactly
one flush and a single append triggers none. -/
theorem append_threshold_triggers_single_flush_witness :
    (Ingest.appendMany (Ingest.init "btc" none 2) FS.empty
      [Json.null, Json.bool true]).2 = 1 ∧
    (Ingest.appendMany (Ingest.init "btc" none 2) FS.empty [Json.null]).2 = 0 :=
  ⟨(append_threshold_triggers_single_flush.2.2 "btc" none 2 FS.empty
      [Json.null, Json.bool true] (by decide)).1 (by decide),
    (append_threshold_triggers_single_flush.2.2 "btc" none 2 FS.empty
      [Json.null] (by decide)).2 (by decide)⟩

/-- C5: for any current time `T` and window count `N ≥ 1`, the scheduler
computes the aligned epoch `(T / 900) * 900` and produces the `N` start
epochs `aligned + 900 * i` for `i = 1..N`: each a multiple of 900, spaced
exactly 900 s apart, the first strictly greater than `T` and at most 900 s
after it; the value handed to the suspension is `first_start - T`. -/
theorem scheduler_produces_aligned_windows (T N : Nat) (hN : 1 ≤ N) :
    (captureTimestamps (Daemon.getTimestamp T) N).length = N ∧
    (∀ i, i < N → (captureTimestamps (Daemon.getTimestamp T) N).getD i 0
        = T / 900 * 900 + 900 * (i + 1)) ∧
    (∀ x ∈ captureTimestamps (Daemon.getTimestamp T) N, x % 900 = 0) ∧
    (∀ i, i + 1 < N → (captureTimestamps (Daemon.getTimestamp T) N).getD (i + 1) 0
        = (captureTimestamps (Daemon.getTimestamp T) N).getD i 0 + 900) ∧
    (∃ first, (captureTimestamps (Daemon.getTimestamp T) N).head? = some first ∧
      T < first ∧ first ≤ T + 900 ∧
      captureTillNext T T N = some ((first : Int) - (T : Int))) := by
  have hgetD : ∀ i, i < N → (captureTimestamps (Daemon.getTimestamp T) N).getD i 0
      = T / 900 * 900 + 900 * (i + 1) := by
    intro i hi
    simp [captureTimestamps, Daemon.getTimestamp, List.getD, hi]
  refine ⟨by simp [captureTimestamps], hgetD, ?_, ?_, ?_⟩
  · intro x hx
    simp [captureTimestamps, Daemon.getTimestamp] at hx
    obtain ⟨i, hi, rfl⟩ := hx
    omega
  · intro i hi
    rw [hgetD (i + 1) hi, hgetD i (by omega)]
    omega
  · obtain ⟨M, rfl⟩ : ∃ M, N = M + 1 := ⟨N - 1, by omega⟩
    have hh : (captureTimestamps (Daemon.getTimestamp T) (M + 1)).head?
        = some (T / 900 * 900 + 900) := by
      simp [captureTimestamps, Daemon.getTimestamp, List.range_succ_eq_map]
    refine ⟨T / 900 * 900 + 900, hh, by omega, by omega, ?_⟩
    rw [captureTillNext, hh]
    rfl

/-- Witness for C5 at `T = 1000`, `N = 2` (first start 1800). -/
theorem scheduler_produces_aligned_windows_witness :
    1 ≤ 2 ∧
    (∃ first, (captureTimestamps (Daemon.getTimestamp 1000) 2).head? = some first ∧
      1000 < first ∧ first ≤ 1000 + 900 ∧
      captureTillNext 1000 1000 2 = some ((first : Int) - (1000 : Int))) :=
  ⟨by decide, (scheduler_produces_aligned_windows 1000 2 (by decide)).2.2.2.2⟩

/-- C8 counterexample: with the aligning clock read at 0 (first start 900)
and the later clock read at 1000 (skewed past the window start), the value
passed to `asyncio.sleep` is the raw `-100`, not `0`: the capture code
performs no clamping. -/
theorem sleep_argument_not_clamped :
    Daemon.getTimestamp 0 + 900 ≤ 1000 ∧
    captureTillNext 0 1000 1 = some (-100) ∧
    ¬((-100 : Int) = 0) := by
  refine ⟨by decide, by decide, by decide⟩

/-- C8 (amended): when the first start epoch is at or before the later
clock reading, the capture loop passes the raw, non-positive difference
`first_start - now` to `asyncio.sleep` unmodified; `asyncio.sleep` treats
a non-positive delay as an immediate return, so the effective wait is
zero, but no clamping happens in this code. -/
theorem sleep_argument_is_raw_difference (t1 t2 N : Nat) (hN : 1 ≤ N)
    (hskew : Daemon.getTimestamp t1 + 900 ≤ t2) :
    captureTillNext t1 t2 N
      = some (((Daemon.getTimestamp t1 + 900 : Nat) : Int) - (t2 : Int)) ∧
    ((Daemon.getTimestamp t1 + 900 : Nat) : Int) - (t2 : Int) ≤ 0 ∧
    asyncioSleepDelay (((Daemon.getTimestamp t1 + 900 : Nat) : Int) - (t2 : Int)) = 0 := by
  obtain ⟨M, rfl⟩ : ∃ M, N = M + 1 := ⟨N - 1, by omega⟩
  have hh : (captureTimestamps (Daemon.getTimestamp t1) (M + 1)).head?
      = some (Daemon.getTimestamp t1 + 900) := by
    simp [captureTimestamps, List.range_succ_eq_map]
  refine ⟨?_, by omega, ?_⟩
  · rw [captureTillNext, hh]
    rfl
  · rw [asyncioSleepDelay]
    omega

/-- Witness for the amended C8 at clock readings 0 and 1000. -/
theorem sleep_argument_is_raw_difference_witness :
    1 ≤ 1 ∧ Daemon.getTimestamp 0 + 900 ≤ 1000 ∧
    (captureTillNext 0 1000 1
      = some (((Daemon.getTimestamp 0 + 900 : Nat) : Int) - (1000 : Int)) ∧
    ((Daemon.getTimestamp 0 + 900 : Nat) : Int) - (1000 : Int) ≤ 0 ∧
    asyncioSleepDelay (((Daemon.getTimestamp 0 + 900 : Nat) : Int) - (1000 : Int)) = 0) :=
  ⟨by decide, by decide, sleep_argument_is_raw_difference 0 1000 1 (by decide) (by decide)⟩

/-- C6: `Ingest.flush` serializes each pending record as one JSON line and
appends all lines, in pending (arrival) order, to the target file,
creating it if absent; the pending sequence and count are cleared exactly
when the entire write succeeds, and a write failure at any point leaves
the object (pending sequence and count included) unchanged. -/
theorem flush_writes_lines_and_clears_only_on_success (b : Ingest) (fs : FS) :
    (b.flushWith fs none = Except.ok
      ({ b with pending := [], count := 0 },
        fs.appendStr b.filepath
          (joinAll (b.pending.map (fun r => Json.dumps r ++ lineSep))))) ∧
    ((fs.appendStr b.filepath
        (joinAll (b.pending.map (fun r => Json.dumps r ++ lineSep)))) b.filepath
      = some ((fs b.filepath).getD ""
          ++ joinAll (b.pending.map (fun r => Json.dumps r ++ lineSep)))) ∧
    (∀ p, p ≠ b.filepath →
      (fs.appendStr b.filepath
        (joinAll (b.pending.map (fun r => Json.dumps r ++ lineSep)))) p = fs p) ∧
    (∀ (budget : Option Nat) (b1 : Ingest) (fs1 : FS),
      b.flushWith fs budget = Except.error (b1, fs1) → b1 = b) := by
  refine ⟨?_, FS.appendStr_self fs _ _, fun p hp => FS.appendStr_of_ne fs _ _ p hp, ?_⟩
  · rw [Ingest.flushWith_none, Ingest.flush]
  · intro budget b1 fs1 h
    rw [Ingest.flushWith] at h
    cases hw : writeAll b.filepath b.flushWrites (fs.appendStr b.filepath "") budget with
    | ok fs2 =>
        rw [hw] at h
        simp at h
    | error fs2 =>
        rw [hw] at h
        simp at h
        exact h.1.symm

/-- Witness for C6: a buffer with one pending record whose first write
fails is returned unchanged. -/
theorem flush_writes_lines_and_clears_only_on_success_witness :
    ({ Ingest.init "btc" none 1000 with
        pending := [Json.null], count := 1 } : Ingest).flushWith FS.empty (some 0)
      = Except.error
          ({ Ingest.init "btc" none 1000 with pending := [Json.null], count := 1 },
            FS.empty.appendStr ("btc" ++ ".jsonl") "") ∧
    ({ Ingest.init "btc" none 1000 with
        pending := [Json.null], count := 1 } : Ingest)
      = { Ingest.init "btc" none 1000 with pending := [Json.null], count := 1 } :=
  ⟨rfl,
    (flush_writes_lines_and_clears_only_on_success _ FS.empty).2.2.2 (some 0) _ _ rfl⟩

/-- C9: flushing an `Ingest` whose pending sequence is empty appends zero
lines to the target file (its contents are unchanged, beyond being created
empty when absent), raises no error whatever the write-fault budget, and
leaves the buffer empty with count 0. -/
theorem flush_empty_writes_nothing (b : Ingest) (fs : FS) (budget : Option Nat)
    (h : b.pending = []) :
    b.flushWith fs budget
      = Except.ok ({ b with pending := [], count := 0 }, fs.appendStr b.filepath "") ∧
    (fs.appendStr b.filepath "") b.filepath = some ((fs b.filepath).getD "") ∧
    (∀ p, p ≠ b.filepath → (fs.appendStr b.filepath "") p = fs p) ∧
    ({ b with pending := ([] : List Json), count := 0 }).pending = [] ∧
    ({ b with pending := ([] : List Json), count := 0 }).count = 0 := by
  refine ⟨?_, ?_, fun p hp => FS.appendStr_of_ne fs _ _ p hp, rfl, rfl⟩
  · rw [Ingest.flushWith, Ingest.flushWrites, h]
    simp [writeAll]
  · rw [FS.appendStr_self]
    simp

/-- Witness for C9: a freshly constructed (empty) buffer flushed with a
zero write budget still succeeds. -/
theorem flush_empty_writes_nothing_witness :
    (Ingest.init "btc" none 3).pending = [] ∧
    (Ingest.init "btc" none 3).flushWith FS.empty (some 0)
      = Except.ok ({ Ingest.init "btc" none 3 with pending := [], count := 0 },
          FS.empty.appendStr ("btc" ++ ".jsonl") "") :=
  ⟨rfl, (flush_empty_writes_nothing (Ingest.init "btc" none 3) FS.empty (some 0) rfl).1⟩

/-- C1: a `ConnectionClosedError` inside the receive loop replaces the
session (a fresh connection generation, old one closed), re-subscribes
the SAME window's token pair on the new connection, does not break out of
the window loop (no window-index advance), performs no flush (filesystem
unchanged), and leaves the ingest buffer — pending sequence, count and
target name — exactly as it was, so every record already appended to the
window's buffer is retained. -/
theorem connection_closed_recovers_same_window (s : CaptureState) :
    (loopStep s Ev.connClosed).1.windowIdx = s.windowIdx ∧
    (loopStep s Ev.connClosed).2.2 = false ∧
    (loopStep s Ev.connClosed).1.ingest = s.ingest ∧
    (loopStep s Ev.connClosed).1.ingest.pending = s.ingest.pending ∧
    (loopStep s Ev.connClosed).1.ingest.count = s.ingest.count ∧
    (loopStep s Ev.connClosed).1.ingest.name = s.ingest.name ∧
    (loopStep s Ev.connClosed).1.fs = s.fs ∧
    (loopStep s Ev.connClosed).1.tokens = s.tokens ∧
    (loopStep s Ev.connClosed).1.socketGen = s.socketGen + 1 ∧
    (loopStep s Ev.connClosed).1.controls
      = s.controls ++ [(s.socketGen + 1, s.tokens, "subscribe")] ∧
    (loopStep s Ev.connClosed).2.1
      = [Act.reconnect (s.socketGen + 1), Act.subscribe (s.socketGen + 1) s.tokens] :=
  ⟨rfl, rfl, rfl, rfl, rfl, rfl, rfl, rfl, rfl, rfl, rfl⟩

/-- C7: at each rotation the buffer is retargeted to the new window's slug
strictly before the subscribe control for the new window's tokens is
sent; after the rotation the buffer's target name and file are the new
window's; every received message is appended under the buffer's current
target name, and no receive-loop step ever changes the target name — so a
record appended after the rotation is never attributed under the previous
window's target name. -/
theorem retarget_precedes_subscribe (g : String → String × String)
    (s : CaptureState) (ts : Nat) (s1 : CaptureState) (acts : List Act)
    (h : windowSetup g s ts = (Except.ok s1, acts)) :
    (∃ (i j : Nat), i < j ∧ acts[i]? = some (Act.retarget (windowSlug s.coin ts)) ∧
      acts[j]? = some (Act.subscribe s.socketGen (g (windowSlug s.coin ts)))) ∧
    s1.ingest.name = windowSlug s.coin ts ∧
    (∃ d, s.ingest.directory = some d ∧
      s1.ingest.filepath = d ++ "/" ++ windowSlug s.coin ts ++ ".jsonl") ∧
    (∀ data, ((loopStep s1 (Ev.message data)).2.1).head?
        = some (Act.appendRec (windowSlug s.coin ts) data)) ∧
    (∀ (t : CaptureState) (e : Ev), (loopStep t e).1.ingest.name = t.ingest.name) := by
  cases hd : s.ingest.directory with
  | none =>
      rw [windowSetup, Ingest.setName, hd] at h
      simp at h
  | some d =>
      rw [windowSetup, Ingest.setName, hd] at h
      simp at h
      obtain ⟨hs, hacts⟩ := h
      refine ⟨⟨1, 2, by omega, by simp [← hacts], by simp [← hacts]⟩,
        by simp [← hs], ⟨d, rfl, by simp [← hs]⟩, ?_, loopStep_name⟩
      intro data
      rcases ha : s1.ingest.append data s1.fs with ⟨⟨b1, fs1⟩, fl⟩
      simp [loopStep, ha]
      simp [← hs]

/-- Witness for C7 at a concrete daemon state rotating into the window
with start epoch 1800. -/
theorem retarget_precedes_subscribe_witness :
    windowSetup (fun _ => ("t1", "t2"))
        { coin := "btc", windowIdx := 0, tokens := ("a", "b"),
          ingest := Ingest.init "btc" (some "logs") 1000, fs := FS.empty,
          socketGen := 0, controls := [] } 1800
      = (Except.ok
          { coin := "btc", windowIdx := 0, tokens := ("t1", "t2"),
            ingest := { pending := [], count := 0,
                        name := "btc-updown-15m-1800",
                        untilFlush := 1000, directory := some "logs",
                        filepath := "logs" ++ "/" ++ "btc-updown-15m-1800" ++ ".jsonl" },
            fs := FS.empty, socketGen := 0,
            controls := [(0, ("t1", "t2"), "subscribe")] },
          [Act.resolveTokens "btc-updown-15m-1800",
            Act.retarget "btc-updown-15m-1800",
            Act.subscribe 0 ("t1", "t2")]) ∧
    ({ pending := [], count := 0, name := "btc-updown-15m-1800",
       untilFlush := 1000, directory := some "logs",
       filepath := "logs" ++ "/" ++ "btc-updown-15m-1800" ++ ".jsonl" } : Ingest).name
      = windowSlug "btc" 1800 :=
  ⟨rfl,
    (retarget_precedes_subscribe (fun _ => ("t1", "t2"))
      { coin := "btc", windowIdx := 0, tokens := ("a", "b"),
        ingest := Ingest.init "btc" (some "logs") 1000, fs := FS.empty,
        socketGen := 0, controls := [] } 1800
      { coin := "btc", windowIdx := 0, tokens := ("t1", "t2"),
        ingest := { pending := [], count := 0,
                    name := "btc-updown-15m-1800",
                    untilFlush := 1000, directory := some "logs",
                    filepath := "logs" ++ "/" ++ "btc-updown-15m-1800" ++ ".jsonl" },
        fs := FS.empty, socketGen := 0,
        controls := [(0, ("t1", "t2"), "subscribe")] }
      [Act.resolveTokens "btc-updown-15m-1800",
        Act.retarget "btc-updown-15m-1800",
        Act.subscribe 0 ("t1", "t2")] rfl).2.1⟩

/-- C10 counterexample: two capture tasks in the task group, the first
failing at step 1 while the second would only complete at step 5; the
group cancels the second task, which therefore does not run to
completion. -/
theorem task_failure_cancels_siblings :
    taskGroupRun [⟨1, true⟩, ⟨5, false⟩]
      = [TaskOutcome.failed, TaskOutcome.cancelled] ∧
    TaskOutcome.cancelled ≠ TaskOutcome.completed :=
  ⟨by decide, by decide⟩

/-- C10 (amended): `main` creates one independent daemon per requested
coin, each owning its own ingest buffer and (initially absent) socket, so
no state is shared across assets; but when one task in the group fails,
`asyncio.TaskGroup` cancels every task still running at the moment of the
first failure, so the other tasks do not in general run to completion. -/
theorem per_coin_daemons_but_group_cancellation :
    (∀ (coins : List String) (dir : Option String),
      (mainDaemons coins dir).length = coins.length ∧
      (∀ (i : Nat) (c : String), coins[i]? = some c →
        (mainDaemons coins dir)[i]?
          = some { coin := c, ingest := Ingest.init c dir 1000, socketGen := none })) ∧
    (∀ (tasks : List TaskSpec) (i : Nat) (t : TaskSpec) (f : Nat),
      firstFailure tasks = some f → tasks[i]? = some t → f < t.finish →
      (taskGroupRun tasks)[i]? = some TaskOutcome.cancelled) := by
  constructor
  · intro coins dir
    refine ⟨by simp [mainDaemons], ?_⟩
    intro i c hc
    simp [mainDaemons, hc]
  · intro tasks i t f hf ht hlt
    have hmap : (taskGroupRun tasks)[i]?
        = some (TaskSpec.outcome (firstFailure tasks) t) := by
      simp [taskGroupRun, List.getElem?_map, ht]
    rw [hmap, hf]
    have h1 : ¬(t.finish < f) := by omega
    have h2 : (t.fails && decide (t.finish = f)) = false := by
      have hne : t.finish ≠ f := by omega
      simp [hne]
    simp [TaskSpec.outcome, h1, h2]

/-- Witness for the amended C10 at the two-task scenario. -/
theorem per_coin_daemons_but_group_cancellation_witness :
    firstFailure [⟨1, true⟩, ⟨5, false⟩] = some 1 ∧
    ([(⟨1, true⟩ : TaskSpec), ⟨5, false⟩])[1]? = some ⟨5, false⟩ ∧
    (1 : Nat) < 5 ∧
    (taskGroupRun [⟨1, true⟩, ⟨5, false⟩])[1]? = some TaskOutcome.cancelled :=
  ⟨by decide, by decide, by decide,
    per_coin_daemons_but_group_cancellation.2 [⟨1, true⟩, ⟨5, false⟩] 1 ⟨5, false⟩ 1
      (by decide) (by decide) (by decide)⟩
